import Mathlib

/-!
# Verification of fmutex (advisory whole-file mutual exclusion via flock(2))

A shallow embedding of `src/lib.rs`.  The operating system is modelled by an
explicit state `OS`: which paths exist, the bytes of each file, the table of
open file descriptions, and the exclusive-lock holder of each inode (inodes
are identified by their path, which is adequate here since nothing renames
files).  The `flock` syscall is modelled after flock(2): an exclusive request
succeeds when the lock is free or already held by the same open file
description, fails with `EWOULDBLOCK` when `LOCK_NB` is set and the lock is
held elsewhere, and suspends the caller otherwise; `LOCK_UN` releases and
closing a descriptor also releases.  Every syscall additionally takes a
`spur : Option ErrorKind` oracle modelling spurious failures (`ENOLCK`,
`EINTR`, ...): when the oracle supplies an error the call fails with it and
leaves the state unchanged.

The library functions `lock`, `try_lock`, `Guard.new`, `Guard.drop`,
`lock_exclusive`, `try_lock_exclusive`, `unlock` and `flock` are translated
line by line from the Rust source, threading the `OS` state explicitly.
-/

namespace Fmutex

/-- Kinds of `io::Error`, restricted to what the source and spec inspect.
`wouldBlock` corresponds to `io::ErrorKind::WouldBlock` (errno `EWOULDBLOCK`);
`badFd` to `EBADF`; `other` stands for any further errno value. -/
inductive ErrorKind where
  | notFound
  | permissionDenied
  | wouldBlock
  | interrupted
  | badFd
  | other
  deriving DecidableEq, Repr

/-- The modelled operating-system state.  `fds` is the table of open file
descriptions (descriptor number paired with the path it was opened on),
`nextFd` the next descriptor number to hand out, and `holder p` the open file
description currently holding the exclusive `flock` lock on the inode of `p`,
if any. -/
structure OS where
  fileExists : String → Bool
  contents : String → List Nat
  nextFd : Nat
  fds : List (Nat × String)
  holder : String → Option Nat

/-- Constant `libc::LOCK_SH`. -/
def LOCK_SH : Nat := 1

/-- Constant `libc::LOCK_EX`. -/
def LOCK_EX : Nat := 2

/-- Constant `libc::LOCK_NB`. -/
def LOCK_NB : Nat := 4

/-- Constant `libc::LOCK_UN`. -/
def LOCK_UN : Nat := 8

/-- Look a descriptor up in the open-file table. -/
def findFd : List (Nat × String) → Nat → Option String
  | [], _ => none
  | (k, v) :: rest, fd => if k = fd then some v else findFd rest fd

/-- Remove a descriptor from the open-file table. -/
def removeFd : List (Nat × String) → Nat → List (Nat × String)
  | [], _ => []
  | (k, v) :: rest, fd =>
      if k = fd then removeFd rest fd else (k, v) :: removeFd rest fd

/-- Update the lock holder of one inode. -/
def OS.setHolder (os : OS) (p : String) (v : Option Nat) : OS :=
  { os with holder := fun q => if q = p then v else os.holder q }

/-- The state after successfully opening path `p`: a fresh descriptor is
allocated and entered into the open-file table. -/
def openedState (os : OS) (p : String) : OS :=
  { os with nextFd := os.nextFd + 1, fds := (os.nextFd, p) :: os.fds }

/-- Closing a descriptor removes it from the open-file table; per flock(2),
closing the open file description also releases any lock it holds. -/
def closeFd (os : OS) (fd : Nat) : OS :=
  { os with
    fds := removeFd os.fds fd,
    holder := fun q => if os.holder q = some fd then none else os.holder q }

/-- Model of `std::fs::OpenOptions`: the three option flags the model distinguishes. -/
structure OpenOptions where
  readFlag : Bool
  writeFlag : Bool
  createFlag : Bool

/-- Rust `OpenOptions::new()`: every flag off. -/
def OpenOptions.new : OpenOptions := ⟨false, false, false⟩

/-- Rust `OpenOptions::read`. -/
def OpenOptions.read (o : OpenOptions) (b : Bool) : OpenOptions :=
  { o with readFlag := b }

/-- Rust `OpenOptions::write`. -/
def OpenOptions.write (o : OpenOptions) (b : Bool) : OpenOptions :=
  { o with writeFlag := b }

/-- Rust `OpenOptions::create`. -/
def OpenOptions.create (o : OpenOptions) (b : Bool) : OpenOptions :=
  { o with createFlag := b }

/-- Rust `OpenOptions::open`: succeeds on an existing path; with the `create` flag
set it would create a missing file (empty contents); otherwise a missing path
is a `NotFound` error and the state is untouched. -/
def OpenOptions.open (o : OpenOptions) (os : OS) (p : String) :
    Except ErrorKind (Nat × OS) :=
  if os.fileExists p then
    .ok (os.nextFd, openedState os p)
  else if o.createFlag then
    .ok (os.nextFd,
      openedState
        { os with
          fileExists := fun q => if q = p then true else os.fileExists q,
          contents := fun q => if q = p then [] else os.contents q } p)
  else
    .error .notFound

/-- Outcome of the raw `libc::flock` call: either the call returns (an `Int`
return value, the errno that `last_os_error` would read when it is negative,
and the new state), or the calling thread suspends (`blocked`, carrying the
state at the moment of suspension). -/
inductive SysOutcome where
  | ret (r : Int) (errno : Option ErrorKind) (os : OS)
  | blocked (os : OS)

/-- Syscall `libc::flock(fd, flag)` per flock(2), with the spurious-failure oracle. -/
def libcFlock (os : OS) (fd : Nat) (flag : Nat) (spur : Option ErrorKind) :
    SysOutcome :=
  match findFd os.fds fd with
  | none => .ret (-1) (some .badFd) os
  | some p =>
    match spur with
    | some e => .ret (-1) (some e) os
    | none =>
      if flag &&& LOCK_UN ≠ 0 then
        if os.holder p = some fd then .ret 0 none (os.setHolder p none)
        else .ret 0 none os
      else
        match os.holder p with
        | none => .ret 0 none (os.setHolder p (some fd))
        | some h =>
          if h = fd then .ret 0 none os
          else if flag &&& LOCK_NB ≠ 0 then .ret (-1) (some .wouldBlock) os
          else .blocked os

/-- Result of the Rust `flock` wrapper (an `io::Result<()>` plus the threaded
state), with a third alternative for a call that never returns. -/
inductive FlockResult where
  | ok (os : OS)
  | err (e : ErrorKind) (os : OS)
  | blocked (os : OS)

/-- The Rust wrapper `fn flock`: runs the syscall and maps a negative return
value to `Err(io::Error::last_os_error())`, anything else to `Ok(())`. -/
def flock (os : OS) (fd : Nat) (flag : Nat) (spur : Option ErrorKind) :
    FlockResult :=
  match libcFlock os fd flag spur with
  | .blocked os' => .blocked os'
  | .ret r errno os' =>
      if r < 0 then .err (errno.getD .badFd) os' else .ok os'

/-- Rust `fn lock_exclusive`: `flock(file, libc::LOCK_EX)`. -/
def lock_exclusive (os : OS) (fd : Nat) (spur : Option ErrorKind) :
    FlockResult :=
  flock os fd LOCK_EX spur

/-- Rust `fn try_lock_exclusive`: `flock(file, libc::LOCK_EX | libc::LOCK_NB)`. -/
def try_lock_exclusive (os : OS) (fd : Nat) (spur : Option ErrorKind) :
    FlockResult :=
  flock os fd (LOCK_EX ||| LOCK_NB) spur

/-- Rust `fn unlock`: `flock(file, libc::LOCK_UN)`. -/
def unlock (os : OS) (fd : Nat) (spur : Option ErrorKind) : FlockResult :=
  flock os fd LOCK_UN spur

/-- Rust `pub struct Guard(File)`: owns one open file description. -/
structure Guard where
  fd : Nat
  deriving DecidableEq, Repr

/-- Rust `Guard::new`: `fs::OpenOptions::new().read(true).open(path)?`. -/
def Guard.new (os : OS) (p : String) : Except ErrorKind (Guard × OS) :=
  match (OpenOptions.new.read true).open os p with
  | .ok (fd, os') => .ok (⟨fd⟩, os')
  | .error e => .error e

/-- Rust `impl Drop for Guard`: `unlock(&self.0).ok();` — the unlock result is
discarded — and then the owned `File` is closed.  A total function into `OS`:
no error is returned and no panic is modelled on this path. -/
def Guard.drop (g : Guard) (os : OS) (spur : Option ErrorKind) : OS :=
  let os1 :=
    match unlock os g.fd spur with
    | .ok os' => os'
    | .err _ os' => os'
    | .blocked os' => os'
  closeFd os1 g.fd

/-- Result of `pub fn lock`: `io::Result<Guard>` plus the threaded state,
with a `blocked` alternative for a call that is still suspended. -/
inductive LockResult where
  | ok (g : Guard) (os : OS)
  | err (e : ErrorKind) (os : OS)
  | blocked (os : OS)

/-- Rust `pub fn lock`: open the file read-only, then `lock_exclusive`; on a lock
failure the `?` operator returns the error and the already-constructed guard
is dropped (running `Guard.drop`). -/
def lock (os : OS) (p : String) (spurEx spurUn : Option ErrorKind) :
    LockResult :=
  match Guard.new os p with
  | .error e => .err e os
  | .ok (g, os1) =>
    match lock_exclusive os1 g.fd spurEx with
    | .ok os2 => .ok g os2
    | .err e os2 => .err e (g.drop os2 spurUn)
    | .blocked os2 => .blocked os2

/-- Result of `pub fn try_lock`: `io::Result<Option<Guard>>` plus the
threaded state, with a `blocked` alternative. -/
inductive TryLockResult where
  | ok (g? : Option Guard) (os : OS)
  | err (e : ErrorKind) (os : OS)
  | blocked (os : OS)

/-- Rust `pub fn try_lock`: open the file read-only, then `try_lock_exclusive`;
`Ok(())` yields `Ok(Some(guard))`, an error of kind `WouldBlock` yields
`Ok(None)`, any other error is returned; in the latter two arms the guard is
dropped. -/
def try_lock (os : OS) (p : String) (spurEx spurUn : Option ErrorKind) :
    TryLockResult :=
  match Guard.new os p with
  | .error e => .err e os
  | .ok (g, os1) =>
    match try_lock_exclusive os1 g.fd spurEx with
    | .ok os2 => .ok (some g) os2
    | .err e os2 =>
      if e = .wouldBlock then .ok none (g.drop os2 spurUn)
      else .err e (g.drop os2 spurUn)
    | .blocked os2 => .blocked os2

/-- Whether a `flock` wrapper call suspended the caller. -/
def FlockResult.isBlocked : FlockResult → Bool
  | .blocked _ => true
  | _ => false

/-- Whether a `try_lock` call suspended the caller. -/
def TryLockResult.isBlocked : TryLockResult → Bool
  | .blocked _ => true
  | _ => false

/-- The OS state carried by a `lock` result (for `blocked`, the state at the
moment of suspension). -/
def LockResult.state : LockResult → OS
  | .ok _ os => os
  | .err _ os => os
  | .blocked os => os

/-- The OS state carried by a `try_lock` result. -/
def TryLockResult.state : TryLockResult → OS
  | .ok _ os => os
  | .err _ os => os
  | .blocked os => os

/-- Well-formedness of an OS state: every open descriptor, and every
descriptor recorded as a lock holder, is below the fresh-descriptor
counter. -/
def OS.WF (os : OS) : Prop :=
  (∀ k v, findFd os.fds k = some v → k < os.nextFd) ∧
  (∀ q fd, os.holder q = some fd → fd < os.nextFd)

/-- The OS state carried by a `flock` wrapper result. -/
def FlockResult.state : FlockResult → OS
  | .ok os => os
  | .err _ os => os
  | .blocked os => os

/-- One acquire-then-release round trip: `lock` the path and, on success,
immediately drop the returned guard (oracles quiet). -/
def cycle (os : OS) (p : String) : OS :=
  match lock os p none none with
  | .ok g os' => g.drop os' none
  | .err _ os' => os'
  | .blocked os' => os'

/-- Iterated acquire-then-release round trips. -/
def cycleN : Nat → OS → String → OS
  | 0, os, _ => os
  | n + 1, os, p => cycleN n (cycle os p) p

/-- A sample state: the file f exists, nothing is open, nothing is locked. -/
def osFree : OS :=
  { fileExists := fun q => q == "f", contents := fun _ => [],
    nextFd := 0, fds := [], holder := fun _ => none }

/-- A sample state: the file f exists and its lock is held by the open file
description 0. -/
def osHeld : OS :=
  { fileExists := fun q => q == "f", contents := fun _ => [],
    nextFd := 1, fds := [(0, "f")],
    holder := fun q => if q = "f" then some 0 else none }

/-! ### Basic lemmas about the OS model -/

theorem OS.ext' {a b : OS} (h1 : a.fileExists = b.fileExists)
    (h2 : a.contents = b.contents) (h3 : a.nextFd = b.nextFd)
    (h4 : a.fds = b.fds) (h5 : a.holder = b.holder) : a = b := by
  cases a; cases b; simp_all

theorem findFd_fresh (os : OS) (hwf : os.WF) :
    findFd os.fds os.nextFd = none := by
  cases h : findFd os.fds os.nextFd with
  | none => rfl
  | some v => exact absurd (hwf.1 _ _ h) (lt_irrefl _)

theorem holder_ne_fresh (os : OS) (hwf : os.WF) (q : String) :
    os.holder q ≠ some os.nextFd := fun h =>
  absurd (hwf.2 _ _ h) (lt_irrefl _)

theorem removeFd_of_absent (l : List (Nat × String)) (k : Nat)
    (h : findFd l k = none) : removeFd l k = l := by
  induction l with
  | nil => rfl
  | cons a rest ih =>
    obtain ⟨a1, a2⟩ := a
    simp only [findFd] at h
    by_cases hk : a1 = k
    · rw [if_pos hk] at h; simp at h
    · rw [if_neg hk] at h
      simp only [removeFd, if_neg hk, ih h]

theorem findFd_removeFd_none (l : List (Nat × String)) (k k' : Nat)
    (h : findFd l k' = none) : findFd (removeFd l k) k' = none := by
  induction l with
  | nil => rfl
  | cons a rest ih =>
    obtain ⟨a1, a2⟩ := a
    simp only [findFd] at h
    by_cases hk' : a1 = k'
    · rw [if_pos hk'] at h; simp at h
    · rw [if_neg hk'] at h
      by_cases hk : a1 = k
      · simp only [removeFd, if_pos hk, ih h]
      · simp only [removeFd, if_neg hk, findFd, if_neg hk', ih h]

theorem findFd_openedState (os : OS) (p : String) :
    findFd (openedState os p).fds os.nextFd = some p := by
  simp [openedState, findFd]

/-- Dropping a guard has exactly the effect of closing its descriptor: the
explicit best-effort unlock changes nothing observable because closing the
open file description also releases the lock, and any unlock failure is
discarded. -/
theorem Guard.drop_eq (g : Guard) (os : OS) (spur : Option ErrorKind) :
    g.drop os spur = closeFd os g.fd := by
  unfold Guard.drop unlock flock libcFlock
  cases hfind : findFd os.fds g.fd with
  | none => simp
  | some p =>
    cases spur with
    | some e => simp
    | none =>
      simp only [LOCK_UN]
      norm_num
      by_cases hh : os.holder p = some g.fd
      · rw [if_pos hh]
        simp only [closeFd, OS.setHolder]
        refine OS.ext' rfl rfl rfl rfl ?_
        funext q
        by_cases hq : q = p
        · subst hq; simp [hh]
        · simp [hq]
      · rw [if_neg hh]; simp

theorem findFd_removeFd_self (l : List (Nat × String)) (k : Nat) :
    findFd (removeFd l k) k = none := by
  induction l with
  | nil => rfl
  | cons a rest ih =>
    obtain ⟨a1, a2⟩ := a
    by_cases hk : a1 = k
    · simp [removeFd, hk, ih]
    · simp [removeFd, hk, findFd, ih]

theorem removeFd_cons_self (l : List (Nat × String)) (k : Nat) (v : String)
    (h : findFd l k = none) : removeFd ((k, v) :: l) k = l := by
  simp [removeFd, removeFd_of_absent l k h]

theorem Guard.new_ok (os : OS) (p : String) (hex : os.fileExists p = true) :
    Guard.new os p = .ok (⟨os.nextFd⟩, openedState os p) := by
  simp [Guard.new, OpenOptions.open, OpenOptions.new, OpenOptions.read, hex]

theorem Guard.new_err (os : OS) (p : String) (hex : os.fileExists p = false) :
    Guard.new os p = .error .notFound := by
  simp [Guard.new, OpenOptions.open, OpenOptions.new, OpenOptions.read, hex]

theorem exFlagUN : LOCK_EX &&& LOCK_UN = 0 := by decide

theorem exnbFlagUN : (LOCK_EX ||| LOCK_NB) &&& LOCK_UN = 0 := by decide

theorem exnbFlagNB : (LOCK_EX ||| LOCK_NB) &&& LOCK_NB = 4 := by decide

theorem exFlagNB : LOCK_EX &&& LOCK_NB = 0 := by decide

/-- A spurious syscall failure surfaces as `Err` with the oracle's errno and
leaves the state unchanged. -/
theorem flock_spur (os : OS) (fd : Nat) (flag : Nat) (p : String)
    (e : ErrorKind) (hfd : findFd os.fds fd = some p) :
    flock os fd flag (some e) = .err e os := by
  simp [flock, libcFlock, hfd]

theorem lock_exclusive_free (os : OS) (fd : Nat) (p : String)
    (hfd : findFd os.fds fd = some p) (hfree : os.holder p = none) :
    lock_exclusive os fd none = .ok (os.setHolder p (some fd)) := by
  simp [lock_exclusive, flock, libcFlock, hfd, hfree, exFlagUN]

theorem lock_exclusive_held (os : OS) (fd : Nat) (p : String) (h : Nat)
    (hfd : findFd os.fds fd = some p) (hheld : os.holder p = some h)
    (hne : h ≠ fd) :
    lock_exclusive os fd none = .blocked os := by
  simp [lock_exclusive, flock, libcFlock, hfd, hheld, hne, exFlagUN, exFlagNB]

theorem try_lock_exclusive_free (os : OS) (fd : Nat) (p : String)
    (hfd : findFd os.fds fd = some p) (hfree : os.holder p = none) :
    try_lock_exclusive os fd none = .ok (os.setHolder p (some fd)) := by
  simp [try_lock_exclusive, flock, libcFlock, hfd, hfree, exnbFlagUN]

theorem try_lock_exclusive_held (os : OS) (fd : Nat) (p : String) (h : Nat)
    (hfd : findFd os.fds fd = some p) (hheld : os.holder p = some h)
    (hne : h ≠ fd) :
    try_lock_exclusive os fd none = .err .wouldBlock os := by
  simp [try_lock_exclusive, flock, libcFlock, hfd, hheld, hne, exnbFlagUN,
    exnbFlagNB]

/-- Closing the freshly opened probing descriptor of a well-formed state
undoes the open completely, except for the fresh-descriptor counter. -/
theorem closeFd_openedState (os : OS) (p : String) (hwf : os.WF) :
    closeFd (openedState os p) os.nextFd = { os with nextFd := os.nextFd + 1 } := by
  refine OS.ext' rfl rfl rfl ?_ ?_
  · show removeFd ((os.nextFd, p) :: os.fds) os.nextFd = os.fds
    exact removeFd_cons_self _ _ _ (findFd_fresh os hwf)
  · funext q
    show (if (openedState os p).holder q = some os.nextFd then none
          else (openedState os p).holder q) = os.holder q
    simp [openedState, holder_ne_fresh os hwf q]

/-- Closing the descriptor that just acquired the lock on a previously free
inode also restores the holder map. -/
theorem closeFd_acquiredState (os : OS) (p : String) (hwf : os.WF)
    (hfree : os.holder p = none) :
    closeFd ((openedState os p).setHolder p (some os.nextFd)) os.nextFd =
      { os with nextFd := os.nextFd + 1 } := by
  refine OS.ext' rfl rfl rfl ?_ ?_
  · show removeFd ((os.nextFd, p) :: os.fds) os.nextFd = os.fds
    exact removeFd_cons_self _ _ _ (findFd_fresh os hwf)
  · funext q
    by_cases hq : q = p
    · subst hq; simp [closeFd, OS.setHolder, openedState, hfree]
    · simp [closeFd, OS.setHolder, openedState, hq, holder_ne_fresh os hwf q]

theorem flock_state_preserves (os : OS) (fd flag : Nat)
    (s : Option ErrorKind) :
    (flock os fd flag s).state.fileExists = os.fileExists ∧
    (flock os fd flag s).state.contents = os.contents := by
  cases hfind : findFd os.fds fd with
  | none => simp [flock, libcFlock, hfind, FlockResult.state]
  | some p =>
    cases s with
    | some e => simp [flock, libcFlock, hfind, FlockResult.state]
    | none =>
      by_cases hUN : flag &&& LOCK_UN ≠ 0
      · by_cases hh : os.holder p = some fd <;>
          simp [flock, libcFlock, hfind, hUN, hh, FlockResult.state,
            OS.setHolder]
      · cases hh : os.holder p with
        | none =>
          simp [flock, libcFlock, hfind, hUN, hh, FlockResult.state,
            OS.setHolder]
        | some h =>
          by_cases hfd2 : h = fd
          · simp [flock, libcFlock, hfind, hUN, hh, hfd2, FlockResult.state]
          · by_cases hNB : flag &&& LOCK_NB ≠ 0 <;>
              simp [flock, libcFlock, hfind, hUN, hh, hfd2, hNB,
                FlockResult.state]

theorem lock_exclusive_preserves (os : OS) (fd : Nat) (s : Option ErrorKind) :
    (lock_exclusive os fd s).state.fileExists = os.fileExists ∧
    (lock_exclusive os fd s).state.contents = os.contents :=
  flock_state_preserves os fd LOCK_EX s

theorem try_lock_exclusive_preserves (os : OS) (fd : Nat)
    (s : Option ErrorKind) :
    (try_lock_exclusive os fd s).state.fileExists = os.fileExists ∧
    (try_lock_exclusive os fd s).state.contents = os.contents :=
  flock_state_preserves os fd (LOCK_EX ||| LOCK_NB) s

theorem try_lock_exclusive_not_blocked (os : OS) (fd : Nat)
    (s : Option ErrorKind) :
    (try_lock_exclusive os fd s).isBlocked = false := by
  cases hfind : findFd os.fds fd with
  | none =>
    simp [try_lock_exclusive, flock, libcFlock, hfind, FlockResult.isBlocked]
  | some p =>
    cases s with
    | some e =>
      simp [try_lock_exclusive, flock, libcFlock, hfind, FlockResult.isBlocked]
    | none =>
      cases hh : os.holder p with
      | none =>
        simp [try_lock_exclusive, flock, libcFlock, hfind, hh, exnbFlagUN,
          FlockResult.isBlocked]
      | some h =>
        by_cases hfd2 : h = fd <;>
          simp [try_lock_exclusive, flock, libcFlock, hfind, hh, hfd2,
            exnbFlagUN, exnbFlagNB, FlockResult.isBlocked]

/-! ### Sample states used by the witnesses -/

theorem osFree_wf : osFree.WF := by
  constructor
  · intro k v h
    simp [osFree, findFd] at h
  · intro q fd h
    simp [osFree] at h

theorem osHeld_wf : osHeld.WF := by
  constructor
  · intro k v h
    show k < 1
    simp only [osHeld, findFd] at h
    by_cases hk : (0 : Nat) = k
    · omega
    · rw [if_neg hk] at h; simp at h
  · intro q fd h
    show fd < 1
    simp only [osHeld] at h
    by_cases hq : q = "f"
    · rw [if_pos hq] at h
      simp at h
      omega
    · rw [if_neg hq] at h
      simp at h

/-- Computation rule for `lock` once the open has succeeded. -/
theorem lock_eq_of_ex (os : OS) (p : String) (s1 s2 : Option ErrorKind)
    (hex : os.fileExists p = true) :
    lock os p s1 s2 =
      match lock_exclusive (openedState os p) os.nextFd s1 with
      | .ok os2 => .ok ⟨os.nextFd⟩ os2
      | .err e os2 => .err e (Guard.drop ⟨os.nextFd⟩ os2 s2)
      | .blocked os2 => .blocked os2 := by
  unfold lock
  rw [Guard.new_ok os p hex]

/-- Computation rule for `try_lock` once the open has succeeded. -/
theorem try_lock_eq_of_ex (os : OS) (p : String) (s1 s2 : Option ErrorKind)
    (hex : os.fileExists p = true) :
    try_lock os p s1 s2 =
      match try_lock_exclusive (openedState os p) os.nextFd s1 with
      | .ok os2 => .ok (some (⟨os.nextFd⟩ : Guard)) os2
      | .err e os2 =>
        if e = ErrorKind.wouldBlock
        then .ok none (Guard.drop ⟨os.nextFd⟩ os2 s2)
        else .err e (Guard.drop ⟨os.nextFd⟩ os2 s2)
      | .blocked os2 => .blocked os2 := by
  unfold try_lock
  rw [Guard.new_ok os p hex]

/-- An open failure makes `lock` return the open error unchanged. -/
theorem lock_notFound (os : OS) (p : String) (s1 s2 : Option ErrorKind)
    (h : os.fileExists p = false) : lock os p s1 s2 = .err .notFound os := by
  unfold lock
  rw [Guard.new_err os p h]

/-- An open failure makes `try_lock` return the open error unchanged. -/
theorem try_lock_notFound (os : OS) (p : String) (s1 s2 : Option ErrorKind)
    (h : os.fileExists p = false) :
    try_lock os p s1 s2 = .err .notFound os := by
  unfold try_lock
  rw [Guard.new_err os p h]

theorem state_if_wb (c : Prop) [Decidable c] (e : ErrorKind) (o : OS)
    (g? : Option Guard) :
    (if c then TryLockResult.ok g? o else TryLockResult.err e o).state = o := by
  split <;> rfl

/-! ### The claims -/

/-- Claim C3: when a Guard is dropped, it requests an unlock on the held file
and then closes the underlying handle; any failure of the unlock is discarded
(best-effort) and the drop path never raises, propagates, or panics.  In the
embedding `Guard.drop` is a total function into `OS` — it returns no error —
and: the guard's descriptor is closed, the guard's descriptor no longer holds
any lock, and when the unlock call fails with any error the drop still
completes, performing exactly the close. -/
theorem guard_drop_release (g : Guard) (os : OS) (p : String)
    (spur : Option ErrorKind) :
    findFd (g.drop os spur).fds g.fd = none ∧
    (g.drop os spur).holder p ≠ some g.fd ∧
    (∀ e, g.drop os (some e) = closeFd os g.fd) := by
  refine ⟨?_, ?_, fun e => Guard.drop_eq g os (some e)⟩
  · rw [Guard.drop_eq]
    exact findFd_removeFd_self os.fds g.fd
  · rw [Guard.drop_eq]
    show (if os.holder p = some g.fd then none else os.holder p) ≠ some g.fd
    by_cases hh : os.holder p = some g.fd
    · simp [hh]
    · simp [hh]

/-- Witness for C3 at a concrete held state. -/
theorem guard_drop_release_witness :
    findFd (Guard.drop ⟨0⟩ osHeld none).fds 0 = none ∧
    (Guard.drop ⟨0⟩ osHeld none).holder "f" ≠ some 0 ∧
    (∀ e, Guard.drop ⟨0⟩ osHeld (some e) = closeFd osHeld 0) :=
  guard_drop_release ⟨0⟩ osHeld "f" none

/-- Claim C4: for every path that does not refer to an existing openable
file, `lock` returns an error (the distinguishable kind `notFound` carried in
the result) without hanging (the result is an `err`, not `blocked`), and
`try_lock` surfaces the same open failure. -/
theorem open_failure_surfaced (os : OS) (p : String)
    (s1 s2 : Option ErrorKind) (h : os.fileExists p = false) :
    lock os p s1 s2 = .err .notFound os ∧
    try_lock os p s1 s2 = .err .notFound os := by
  constructor
  · simp [lock, Guard.new_err os p h]
  · simp [try_lock, Guard.new_err os p h]

/-- Witness for C4 at a concrete state and missing path. -/
theorem open_failure_surfaced_witness :
    lock osFree "g" none none = .err .notFound osFree ∧
    try_lock osFree "g" none none = .err .notFound osFree :=
  open_failure_surfaced osFree "g" none none (by decide)

/-- Claim C6: `try_lock` never blocks: the lock request it issues goes
through `try_lock_exclusive`, whose flag carries the `LOCK_NB` bit, and
neither `try_lock_exclusive` nor `try_lock` ever produces the `blocked`
outcome, on any input. -/
theorem try_lock_never_blocks :
    (∀ os fd s, try_lock_exclusive os fd s = flock os fd (LOCK_EX ||| LOCK_NB) s) ∧
    (LOCK_EX ||| LOCK_NB) &&& LOCK_NB = LOCK_NB ∧
    (∀ os fd s, (try_lock_exclusive os fd s).isBlocked = false) ∧
    (∀ os p s1 s2, (try_lock os p s1 s2).isBlocked = false) := by
  refine ⟨fun _ _ _ => rfl, by decide, try_lock_exclusive_not_blocked, ?_⟩
  intro os p s1 s2
  cases hex : os.fileExists p with
  | false => rw [try_lock_notFound os p s1 s2 hex]; rfl
  | true =>
    rw [try_lock_eq_of_ex os p s1 s2 hex]
    have hnb := try_lock_exclusive_not_blocked (openedState os p) os.nextFd s1
    cases hres : try_lock_exclusive (openedState os p) os.nextFd s1 with
    | ok os2 => rfl
    | err e os2 =>
      show (if e = ErrorKind.wouldBlock
            then TryLockResult.ok none (Guard.drop ⟨os.nextFd⟩ os2 s2)
            else TryLockResult.err e (Guard.drop ⟨os.nextFd⟩ os2 s2)).isBlocked
            = false
      by_cases he : e = ErrorKind.wouldBlock
      · rw [if_pos he]; rfl
      · rw [if_neg he]; rfl
    | blocked os2 => rw [hres] at hnb; simp [FlockResult.isBlocked] at hnb

/-- Claim C8 (part): `lock` preserves file existence and file contents in
every outcome. -/
theorem lock_state_fs (os : OS) (p : String) (s1 s2 : Option ErrorKind) :
    (lock os p s1 s2).state.fileExists = os.fileExists ∧
    (lock os p s1 s2).state.contents = os.contents := by
  cases hex : os.fileExists p with
  | false => rw [lock_notFound os p s1 s2 hex]; exact ⟨rfl, rfl⟩
  | true =>
    rw [lock_eq_of_ex os p s1 s2 hex]
    have hpre := lock_exclusive_preserves (openedState os p) os.nextFd s1
    cases hres : lock_exclusive (openedState os p) os.nextFd s1 with
    | ok os2 => rw [hres] at hpre; exact hpre
    | err e os2 =>
      rw [hres] at hpre
      refine ⟨?_, ?_⟩
      · show (Guard.drop ⟨os.nextFd⟩ os2 s2).fileExists = os.fileExists
        rw [Guard.drop_eq]
        exact hpre.1
      · show (Guard.drop ⟨os.nextFd⟩ os2 s2).contents = os.contents
        rw [Guard.drop_eq]
        exact hpre.2
    | blocked os2 => rw [hres] at hpre; exact hpre

/-- Claim C8 (part): `try_lock` preserves file existence and file contents
in every outcome. -/
theorem try_lock_state_fs (os : OS) (p : String) (s1 s2 : Option ErrorKind) :
    (try_lock os p s1 s2).state.fileExists = os.fileExists ∧
    (try_lock os p s1 s2).state.contents = os.contents := by
  cases hex : os.fileExists p with
  | false => rw [try_lock_notFound os p s1 s2 hex]; exact ⟨rfl, rfl⟩
  | true =>
    rw [try_lock_eq_of_ex os p s1 s2 hex]
    have hpre := try_lock_exclusive_preserves (openedState os p) os.nextFd s1
    cases hres : try_lock_exclusive (openedState os p) os.nextFd s1 with
    | ok os2 => rw [hres] at hpre; exact hpre
    | err e os2 =>
      rw [hres] at hpre
      refine ⟨?_, ?_⟩
      · show ((if e = ErrorKind.wouldBlock
              then TryLockResult.ok none (Guard.drop ⟨os.nextFd⟩ os2 s2)
              else TryLockResult.err e (Guard.drop ⟨os.nextFd⟩ os2 s2)).state).fileExists
              = os.fileExists
        rw [state_if_wb, Guard.drop_eq]
        exact hpre.1
      · show ((if e = ErrorKind.wouldBlock
              then TryLockResult.ok none (Guard.drop ⟨os.nextFd⟩ os2 s2)
              else TryLockResult.err e (Guard.drop ⟨os.nextFd⟩ os2 s2)).state).contents
              = os.contents
        rw [state_if_wb, Guard.drop_eq]
        exact hpre.2
    | blocked os2 => rw [hres] at hpre; exact hpre

/-- Claim C8: acquisition never mutates the target: the open performed by
`Guard.new` is read-only (read flag on, write and create flags off), and in
every outcome `lock` and `try_lock` leave file existence and file contents
of every path unchanged. -/
theorem acquisition_read_only :
    ((OpenOptions.new.read true).readFlag = true ∧
     (OpenOptions.new.read true).writeFlag = false ∧
     (OpenOptions.new.read true).createFlag = false) ∧
    (∀ os p s1 s2, (lock os p s1 s2).state.fileExists = os.fileExists ∧
      (lock os p s1 s2).state.contents = os.contents) ∧
    (∀ os p s1 s2, (try_lock os p s1 s2).state.fileExists = os.fileExists ∧
      (try_lock os p s1 s2).state.contents = os.contents) :=
  ⟨⟨rfl, rfl, rfl⟩, lock_state_fs, try_lock_state_fs⟩

/-- A failing `flock` wrapper call leaves the OS state unchanged. -/
theorem flock_err_state (os : OS) (fd flag : Nat) (s : Option ErrorKind)
    (e : ErrorKind) (os2 : OS) (h : flock os fd flag s = .err e os2) :
    os2 = os := by
  cases hfind : findFd os.fds fd with
  | none =>
    simp only [flock, libcFlock, hfind] at h
    simp at h
    exact h.2.symm
  | some p =>
    cases s with
    | some e0 =>
      simp only [flock, libcFlock, hfind] at h
      simp at h
      exact h.2.symm
    | none =>
      by_cases hUN : flag &&& LOCK_UN ≠ 0
      · by_cases hh : os.holder p = some fd <;>
          simp [flock, libcFlock, hfind, hUN, hh] at h
      · cases hh : os.holder p with
        | none => simp [flock, libcFlock, hfind, hUN, hh] at h
        | some h0 =>
          by_cases hfd2 : h0 = fd
          · simp [flock, libcFlock, hfind, hUN, hh, hfd2] at h
          · by_cases hNB : flag &&& LOCK_NB ≠ 0
            · simp [flock, libcFlock, hfind, hUN, hh, hfd2, hNB] at h
              exact h.2.symm
            · simp [flock, libcFlock, hfind, hUN, hh, hfd2, hNB] at h

/-- Claim C1: mutual exclusion.  While a guard `g` holds the lock on path
`p` (the holder of `p`'s inode is `g`'s open file description), a concurrent
`try_lock` on `p` is refused — it returns `Ok(None)` and the holder is
unchanged — and a concurrent `lock` on `p` blocks; after `g` is dropped, a
subsequent `try_lock` on `p` succeeds. -/
theorem mutual_exclusion (os : OS) (p : String) (g : Guard) (hwf : os.WF)
    (hex : os.fileExists p = true) (hheld : os.holder p = some g.fd)
    (hfd : findFd os.fds g.fd = some p) :
    (∃ os', try_lock os p none none = .ok none os' ∧
      os'.holder p = some g.fd) ∧
    (∃ os', lock os p none none = .blocked os') ∧
    (∃ g' os', try_lock (g.drop os none) p none none = .ok (some g') os') := by
  have hne : g.fd ≠ os.nextFd := Nat.ne_of_lt (hwf.1 g.fd p hfd)
  refine ⟨?_, ?_, ?_⟩
  · refine ⟨{ os with nextFd := os.nextFd + 1 }, ?_, hheld⟩
    rw [try_lock_eq_of_ex os p none none hex,
      try_lock_exclusive_held (openedState os p) os.nextFd p g.fd
        (findFd_openedState os p) hheld hne]
    show (if ErrorKind.wouldBlock = ErrorKind.wouldBlock
          then TryLockResult.ok none
            (Guard.drop ⟨os.nextFd⟩ (openedState os p) none)
          else TryLockResult.err ErrorKind.wouldBlock
            (Guard.drop ⟨os.nextFd⟩ (openedState os p) none)) = _
    rw [if_pos rfl, Guard.drop_eq, closeFd_openedState os p hwf]
  · refine ⟨openedState os p, ?_⟩
    rw [lock_eq_of_ex os p none none hex,
      lock_exclusive_held (openedState os p) os.nextFd p g.fd
        (findFd_openedState os p) hheld hne]
  · rw [Guard.drop_eq]
    have hfree2 : (closeFd os g.fd).holder p = none := by
      show (if os.holder p = some g.fd then none else os.holder p) = none
      rw [if_pos hheld]
    refine ⟨⟨(closeFd os g.fd).nextFd⟩,
      (openedState (closeFd os g.fd) p).setHolder p
        (some (closeFd os g.fd).nextFd), ?_⟩
    rw [try_lock_eq_of_ex (closeFd os g.fd) p none none hex,
      try_lock_exclusive_free (openedState (closeFd os g.fd) p)
        (closeFd os g.fd).nextFd p (findFd_openedState _ p) hfree2]

/-- Witness for C1: in `osHeld` the lock on f is held by descriptor 0. -/
theorem mutual_exclusion_witness :
    (∃ os', try_lock osHeld "f" none none = .ok none os' ∧
      os'.holder "f" = some 0) ∧
    (∃ os', lock osHeld "f" none none = .blocked os') ∧
    (∃ g' os',
      try_lock (Guard.drop ⟨0⟩ osHeld none) "f" none none =
        .ok (some g') os') :=
  mutual_exclusion osHeld "f" ⟨0⟩ osHeld_wf (by decide) (by decide) (by decide)

/-- Claim C2: tri-state separation in `try_lock` on an openable path: it
returns `Ok(None)` exactly when the non-blocking lock request fails with the
would-block condition; it returns `Ok(Some _)` exactly when the non-blocking
lock request succeeds; every `Err e` it returns has `e ≠ wouldBlock` and
stems from a non-would-block failure of the lock request; and every
non-would-block failure of the lock request is surfaced as `Err`. -/
theorem try_lock_tristate (os : OS) (p : String) (sEx sUn : Option ErrorKind)
    (hex : os.fileExists p = true) :
    ((∃ os', try_lock os p sEx sUn = .ok none os') ↔
      (∃ os', try_lock_exclusive (openedState os p) os.nextFd sEx =
        .err .wouldBlock os')) ∧
    ((∃ g os', try_lock os p sEx sUn = .ok (some g) os') ↔
      (∃ os', try_lock_exclusive (openedState os p) os.nextFd sEx =
        .ok os')) ∧
    (∀ e os', try_lock os p sEx sUn = .err e os' →
      e ≠ .wouldBlock ∧
      ∃ os'', try_lock_exclusive (openedState os p) os.nextFd sEx =
        .err e os'') ∧
    (∀ e os', try_lock_exclusive (openedState os p) os.nextFd sEx =
        .err e os' →
      e ≠ .wouldBlock → ∃ os'', try_lock os p sEx sUn = .err e os'') := by
  rw [try_lock_eq_of_ex os p sEx sUn hex]
  have hnb := try_lock_exclusive_not_blocked (openedState os p) os.nextFd sEx
  cases hres : try_lock_exclusive (openedState os p) os.nextFd sEx with
  | ok os2 => simp
  | err e os2 =>
    by_cases he : e = ErrorKind.wouldBlock
    · subst he
      simp
    · simp [he]
  | blocked os2 => rw [hres] at hnb; simp [FlockResult.isBlocked] at hnb

/-- Witness for C2 at a concrete contended state. -/
theorem try_lock_tristate_witness :
    ((∃ os', try_lock osHeld "f" none none = .ok none os') ↔
      (∃ os', try_lock_exclusive (openedState osHeld "f") osHeld.nextFd none =
        .err .wouldBlock os')) ∧
    ((∃ g os', try_lock osHeld "f" none none = .ok (some g) os') ↔
      (∃ os', try_lock_exclusive (openedState osHeld "f") osHeld.nextFd none =
        .ok os')) ∧
    (∀ e os', try_lock osHeld "f" none none = .err e os' →
      e ≠ .wouldBlock ∧
      ∃ os'', try_lock_exclusive (openedState osHeld "f") osHeld.nextFd none =
        .err e os'') ∧
    (∀ e os', try_lock_exclusive (openedState osHeld "f") osHeld.nextFd none =
        .err e os' →
      e ≠ .wouldBlock →
      ∃ os'', try_lock osHeld "f" none none = .err e os'') :=
  try_lock_tristate osHeld "f" none none (by decide)

/-- Claim C5: two-state lock state machine for the inode of `p`.  The state
is `os.holder p` (`none` = Unlocked, `some fd` = Locked).  A successful
`lock` or `try_lock` is the only step shown that moves Unlocked to Locked
(and indeed requires the Unlocked precondition); every unsuccessful outcome
of `lock` and `try_lock` leaves the state unchanged; dropping the holding
guard moves Locked to Unlocked; dropping any other guard leaves the state
unchanged. -/
theorem lock_state_machine (os : OS) (p : String) (s1 s2 : Option ErrorKind)
    (hwf : os.WF) :
    (∀ g os', lock os p s1 s2 = .ok g os' →
      os.holder p = none ∧ os'.holder p = some g.fd) ∧
    (∀ e os', lock os p s1 s2 = .err e os' → os'.holder p = os.holder p) ∧
    (∀ g os', try_lock os p s1 s2 = .ok (some g) os' →
      os.holder p = none ∧ os'.holder p = some g.fd) ∧
    (∀ os', try_lock os p s1 s2 = .ok none os' →
      os'.holder p = os.holder p) ∧
    (∀ e os', try_lock os p s1 s2 = .err e os' →
      os'.holder p = os.holder p) ∧
    (∀ (g : Guard) spur, os.holder p = some g.fd →
      (g.drop os spur).holder p = none) ∧
    (∀ (g : Guard) spur, os.holder p ≠ some g.fd →
      (g.drop os spur).holder p = os.holder p) := by
  have hdrop1 : ∀ (g : Guard) spur, os.holder p = some g.fd →
      (g.drop os spur).holder p = none := by
    intro g spur hh
    rw [Guard.drop_eq]
    show (if os.holder p = some g.fd then none else os.holder p) = none
    rw [if_pos hh]
  have hdrop2 : ∀ (g : Guard) spur, os.holder p ≠ some g.fd →
      (g.drop os spur).holder p = os.holder p := by
    intro g spur hh
    rw [Guard.drop_eq]
    show (if os.holder p = some g.fd then none else os.holder p) = os.holder p
    rw [if_neg hh]
  have hfive :
      (∀ g os', lock os p s1 s2 = .ok g os' →
        os.holder p = none ∧ os'.holder p = some g.fd) ∧
      (∀ e os', lock os p s1 s2 = .err e os' →
        os'.holder p = os.holder p) ∧
      (∀ g os', try_lock os p s1 s2 = .ok (some g) os' →
        os.holder p = none ∧ os'.holder p = some g.fd) ∧
      (∀ os', try_lock os p s1 s2 = .ok none os' →
        os'.holder p = os.holder p) ∧
      (∀ e os', try_lock os p s1 s2 = .err e os' →
        os'.holder p = os.holder p) := by
    cases hex : os.fileExists p with
    | false =>
      have hl := lock_notFound os p s1 s2 hex
      have ht := try_lock_notFound os p s1 s2 hex
      refine ⟨?_, ?_, ?_, ?_, ?_⟩
      · intro g os' h; rw [hl] at h; exact absurd h (by simp)
      · intro e os' h; rw [hl] at h
        simp only [LockResult.err.injEq] at h
        rw [← h.2]
      · intro g os' h; rw [ht] at h; exact absurd h (by simp)
      · intro os' h; rw [ht] at h; exact absurd h (by simp)
      · intro e os' h; rw [ht] at h
        simp only [TryLockResult.err.injEq] at h
        rw [← h.2]
    | true =>
      cases s1 with
      | some e0 =>
        have hfl : lock_exclusive (openedState os p) os.nextFd (some e0) =
            .err e0 (openedState os p) :=
          flock_spur (openedState os p) os.nextFd LOCK_EX p e0
            (findFd_openedState os p)
        have hft : try_lock_exclusive (openedState os p) os.nextFd (some e0) =
            .err e0 (openedState os p) :=
          flock_spur (openedState os p) os.nextFd (LOCK_EX ||| LOCK_NB) p e0
            (findFd_openedState os p)
        have hl : lock os p (some e0) s2 =
            .err e0 { os with nextFd := os.nextFd + 1 } := by
          rw [lock_eq_of_ex os p (some e0) s2 hex, hfl]
          show LockResult.err e0
              (Guard.drop ⟨os.nextFd⟩ (openedState os p) s2) = _
          rw [Guard.drop_eq, closeFd_openedState os p hwf]
        have ht : try_lock os p (some e0) s2 =
            if e0 = ErrorKind.wouldBlock
            then .ok none { os with nextFd := os.nextFd + 1 }
            else .err e0 { os with nextFd := os.nextFd + 1 } := by
          rw [try_lock_eq_of_ex os p (some e0) s2 hex, hft]
          show (if e0 = ErrorKind.wouldBlock
                then TryLockResult.ok none
                  (Guard.drop ⟨os.nextFd⟩ (openedState os p) s2)
                else TryLockResult.err e0
                  (Guard.drop ⟨os.nextFd⟩ (openedState os p) s2)) = _
          rw [Guard.drop_eq, closeFd_openedState os p hwf]
        refine ⟨?_, ?_, ?_, ?_, ?_⟩
        · intro g os' h; rw [hl] at h; exact absurd h (by simp)
        · intro e os' h; rw [hl] at h
          simp only [LockResult.err.injEq] at h
          rw [← h.2]
        · intro g os' h; rw [ht] at h
          by_cases he : e0 = ErrorKind.wouldBlock
          · rw [if_pos he] at h; exact absurd h (by simp)
          · rw [if_neg he] at h; exact absurd h (by simp)
        · intro os' h; rw [ht] at h
          by_cases he : e0 = ErrorKind.wouldBlock
          · rw [if_pos he] at h
            simp only [TryLockResult.ok.injEq] at h
            rw [← h.2]
          · rw [if_neg he] at h; exact absurd h (by simp)
        · intro e os' h; rw [ht] at h
          by_cases he : e0 = ErrorKind.wouldBlock
          · rw [if_pos he] at h; exact absurd h (by simp)
          · rw [if_neg he] at h
            simp only [TryLockResult.err.injEq] at h
            rw [← h.2]
      | none =>
        cases hh : os.holder p with
        | none =>
          have hfl : lock_exclusive (openedState os p) os.nextFd none =
              .ok ((openedState os p).setHolder p (some os.nextFd)) :=
            lock_exclusive_free _ _ p (findFd_openedState os p) hh
          have hft : try_lock_exclusive (openedState os p) os.nextFd none =
              .ok ((openedState os p).setHolder p (some os.nextFd)) :=
            try_lock_exclusive_free _ _ p (findFd_openedState os p) hh
          have hl : lock os p none s2 =
              .ok ⟨os.nextFd⟩
                ((openedState os p).setHolder p (some os.nextFd)) := by
            rw [lock_eq_of_ex os p none s2 hex, hfl]
          have ht : try_lock os p none s2 =
              .ok (some (⟨os.nextFd⟩ : Guard))
                ((openedState os p).setHolder p (some os.nextFd)) := by
            rw [try_lock_eq_of_ex os p none s2 hex, hft]
          refine ⟨?_, ?_, ?_, ?_, ?_⟩
          · intro g os' h; rw [hl] at h
            simp only [LockResult.ok.injEq] at h
            refine ⟨rfl, ?_⟩
            rw [← h.1, ← h.2]
            show (if p = p then some os.nextFd else os.holder p) =
              some (⟨os.nextFd⟩ : Guard).fd
            rw [if_pos rfl]
          · intro e os' h; rw [hl] at h; exact absurd h (by simp)
          · intro g os' h; rw [ht] at h
            simp only [TryLockResult.ok.injEq, Option.some.injEq] at h
            refine ⟨rfl, ?_⟩
            rw [← h.1, ← h.2]
            show (if p = p then some os.nextFd else os.holder p) =
              some (⟨os.nextFd⟩ : Guard).fd
            rw [if_pos rfl]
          · intro os' h; rw [ht] at h; exact absurd h (by simp)
          · intro e os' h; rw [ht] at h; exact absurd h (by simp)
        | some h0 =>
          have hne : h0 ≠ os.nextFd := Nat.ne_of_lt (hwf.2 p h0 hh)
          have hfl : lock_exclusive (openedState os p) os.nextFd none =
              .blocked (openedState os p) :=
            lock_exclusive_held _ _ p h0 (findFd_openedState os p) hh hne
          have hft : try_lock_exclusive (openedState os p) os.nextFd none =
              .err .wouldBlock (openedState os p) :=
            try_lock_exclusive_held _ _ p h0 (findFd_openedState os p) hh hne
          have hl : lock os p none s2 = .blocked (openedState os p) := by
            rw [lock_eq_of_ex os p none s2 hex, hfl]
          have ht : try_lock os p none s2 =
              .ok none { os with nextFd := os.nextFd + 1 } := by
            rw [try_lock_eq_of_ex os p none s2 hex, hft]
            show (if ErrorKind.wouldBlock = ErrorKind.wouldBlock
                  then TryLockResult.ok none
                    (Guard.drop ⟨os.nextFd⟩ (openedState os p) s2)
                  else TryLockResult.err ErrorKind.wouldBlock
                    (Guard.drop ⟨os.nextFd⟩ (openedState os p) s2)) = _
            rw [if_pos rfl, Guard.drop_eq, closeFd_openedState os p hwf]
          refine ⟨?_, ?_, ?_, ?_, ?_⟩
          · intro g os' h; rw [hl] at h; exact absurd h (by simp)
          · intro e os' h; rw [hl] at h; exact absurd h (by simp)
          · intro g os' h; rw [ht] at h; exact absurd h (by simp)
          · intro os' h; rw [ht] at h
            simp only [TryLockResult.ok.injEq] at h
            rw [← h.2]
            exact hh
          · intro e os' h; rw [ht] at h; exact absurd h (by simp)
  exact ⟨hfive.1, hfive.2.1, hfive.2.2.1, hfive.2.2.2.1, hfive.2.2.2.2,
    hdrop1, hdrop2⟩

/-- Claim C7: no side effects on the `None` path.  When `try_lock` returns
`Ok(None)`, the probing descriptor has been closed again — the open-file
table is exactly as before — and the holder map, file existence and file
contents are all unchanged. -/
theorem try_none_no_side_effects (os : OS) (p : String)
    (s1 s2 : Option ErrorKind) (os' : OS) (hwf : os.WF)
    (h : try_lock os p s1 s2 = .ok none os') :
    os'.fds = os.fds ∧ os'.holder = os.holder ∧
    os'.fileExists = os.fileExists ∧ os'.contents = os.contents := by
  have main : os' = { os with nextFd := os.nextFd + 1 } := by
    cases hex : os.fileExists p with
    | false =>
      rw [try_lock_notFound os p s1 s2 hex] at h
      exact absurd h (by simp)
    | true =>
      rw [try_lock_eq_of_ex os p s1 s2 hex] at h
      have hnb := try_lock_exclusive_not_blocked (openedState os p) os.nextFd s1
      cases hres : try_lock_exclusive (openedState os p) os.nextFd s1 with
      | ok os2 =>
        rw [hres] at h
        exact absurd h (by simp)
      | err e os2 =>
        have hos2 : os2 = openedState os p := flock_err_state _ _ _ _ _ _ hres
        rw [hres] at h
        have h' : (if e = ErrorKind.wouldBlock
            then TryLockResult.ok none (Guard.drop ⟨os.nextFd⟩ os2 s2)
            else TryLockResult.err e (Guard.drop ⟨os.nextFd⟩ os2 s2)) =
            TryLockResult.ok none os' := h
        by_cases he : e = ErrorKind.wouldBlock
        · rw [if_pos he] at h'
          simp only [TryLockResult.ok.injEq] at h'
          rw [← h'.2, Guard.drop_eq, hos2]
          exact closeFd_openedState os p hwf
        · rw [if_neg he] at h'
          exact absurd h' (by simp)
      | blocked os2 =>
        rw [hres] at hnb
        simp [FlockResult.isBlocked] at hnb
  rw [main]
  exact ⟨rfl, rfl, rfl, rfl⟩

/-- Witness for C7 at a concrete contended state. -/
theorem try_none_no_side_effects_witness :
    (Guard.drop ⟨1⟩ (openedState osHeld "f") none).fds = osHeld.fds ∧
    (Guard.drop ⟨1⟩ (openedState osHeld "f") none).holder = osHeld.holder ∧
    (Guard.drop ⟨1⟩ (openedState osHeld "f") none).fileExists =
      osHeld.fileExists ∧
    (Guard.drop ⟨1⟩ (openedState osHeld "f") none).contents =
      osHeld.contents :=
  try_none_no_side_effects osHeld "f" none none _ osHeld_wf rfl

/-- Claim C10: atomicity on acquisition failure.  When the lock syscall
fails after the open succeeded — in `lock` with any spurious error, in
`try_lock` with any non-would-block spurious error — the error is returned
and the final state is the original one except for the fresh-descriptor
counter: the transiently opened descriptor is closed again (the guard was
dropped, with its best-effort unlock) and the holder map is untouched. -/
theorem acquisition_failure_atomic (os : OS) (p : String) (e : ErrorKind)
    (sUn : Option ErrorKind) (hwf : os.WF) (hex : os.fileExists p = true) :
    lock os p (some e) sUn = .err e { os with nextFd := os.nextFd + 1 } ∧
    (e ≠ .wouldBlock →
      try_lock os p (some e) sUn =
        .err e { os with nextFd := os.nextFd + 1 }) := by
  have hfl := flock_spur (openedState os p) os.nextFd LOCK_EX p e
    (findFd_openedState os p)
  have hft := flock_spur (openedState os p) os.nextFd (LOCK_EX ||| LOCK_NB)
    p e (findFd_openedState os p)
  constructor
  · rw [lock_eq_of_ex os p (some e) sUn hex,
      show lock_exclusive (openedState os p) os.nextFd (some e) =
        .err e (openedState os p) from hfl]
    show LockResult.err e (Guard.drop ⟨os.nextFd⟩ (openedState os p) sUn) = _
    rw [Guard.drop_eq, closeFd_openedState os p hwf]
  · intro hne
    rw [try_lock_eq_of_ex os p (some e) sUn hex,
      show try_lock_exclusive (openedState os p) os.nextFd (some e) =
        .err e (openedState os p) from hft]
    show (if e = ErrorKind.wouldBlock
          then TryLockResult.ok none
            (Guard.drop ⟨os.nextFd⟩ (openedState os p) sUn)
          else TryLockResult.err e
            (Guard.drop ⟨os.nextFd⟩ (openedState os p) sUn)) = _
    rw [if_neg hne, Guard.drop_eq, closeFd_openedState os p hwf]

/-- Witness for C10 at a concrete state with a spurious interrupted error. -/
theorem acquisition_failure_atomic_witness :
    lock osFree "f" (some .interrupted) none =
      .err .interrupted { osFree with nextFd := osFree.nextFd + 1 } ∧
    (ErrorKind.interrupted ≠ .wouldBlock →
      try_lock osFree "f" (some .interrupted) none =
        .err .interrupted { osFree with nextFd := osFree.nextFd + 1 }) :=
  acquisition_failure_atomic osFree "f" .interrupted none osFree_wf
    (by decide)

/-- A successful noncontended acquisition, computed in closed form. -/
theorem lock_free_ok (os : OS) (p : String) (hex : os.fileExists p = true)
    (hfree : os.holder p = none) :
    lock os p none none =
      .ok ⟨os.nextFd⟩ ((openedState os p).setHolder p (some os.nextFd)) := by
  rw [lock_eq_of_ex os p none none hex,
    lock_exclusive_free _ _ p (findFd_openedState os p) hfree]

/-- One acquire/release cycle on a free well-formed state only bumps the
fresh-descriptor counter. -/
theorem cycle_eq (os : OS) (p : String) (hwf : os.WF)
    (hex : os.fileExists p = true) (hfree : os.holder p = none) :
    cycle os p = { os with nextFd := os.nextFd + 1 } := by
  unfold cycle
  rw [lock_free_ok os p hex hfree]
  show Guard.drop ⟨os.nextFd⟩
      ((openedState os p).setHolder p (some os.nextFd)) none = _
  rw [Guard.drop_eq]
  exact closeFd_acquiredState os p hwf hfree

theorem wf_bump (os : OS) (hwf : os.WF) :
    OS.WF { os with nextFd := os.nextFd + 1 } :=
  ⟨fun k v h => Nat.lt_succ_of_lt (hwf.1 k v h),
   fun q fd h => Nat.lt_succ_of_lt (hwf.2 q fd h)⟩

theorem cycleN_eq (p : String) : ∀ (n : Nat) (os : OS), os.WF →
    os.fileExists p = true → os.holder p = none →
    cycleN n os p = { os with nextFd := os.nextFd + n } := by
  intro n
  induction n with
  | zero =>
    intro os hwf hex hfree
    show os = _
    refine OS.ext' rfl rfl ?_ rfl rfl
    show os.nextFd = os.nextFd + 0
    omega
  | succ n ih =>
    intro os hwf hex hfree
    show cycleN n (cycle os p) p = _
    rw [cycle_eq os p hwf hex hfree,
      ih { os with nextFd := os.nextFd + 1 } (wf_bump os hwf) hex hfree]
    refine OS.ext' rfl rfl ?_ rfl rfl
    show os.nextFd + 1 + n = os.nextFd + (n + 1)
    omega

/-- Claim C9: round-trip.  Starting from any free well-formed state with an
existing file, after any number `n` of acquire-then-release cycles, a further
`lock` still succeeds, and the open-file table, holder map and file system
are exactly as at the start — each cycle closed its descriptor, so no
resource is leaked. -/
theorem round_trip (os : OS) (p : String) (hwf : os.WF)
    (hex : os.fileExists p = true) (hfree : os.holder p = none) (n : Nat) :
    (∃ g os', lock (cycleN n os p) p none none = .ok g os') ∧
    (cycleN n os p).fds = os.fds ∧
    (cycleN n os p).holder = os.holder ∧
    (cycleN n os p).fileExists = os.fileExists := by
  rw [cycleN_eq p n os hwf hex hfree]
  exact ⟨⟨⟨os.nextFd + n⟩, _,
    lock_free_ok { os with nextFd := os.nextFd + n } p hex hfree⟩,
    rfl, rfl, rfl⟩

/-- Witness for C9 with three cycles from a concrete free state. -/
theorem round_trip_witness :
    (∃ g os', lock (cycleN 3 osFree "f") "f" none none = .ok g os') ∧
    (cycleN 3 osFree "f").fds = osFree.fds ∧
    (cycleN 3 osFree "f").holder = osFree.holder ∧
    (cycleN 3 osFree "f").fileExists = osFree.fileExists :=
  round_trip osFree "f" osFree_wf (by decide) rfl 3

/-- Witness for C5 at a concrete free state. -/
theorem lock_state_machine_witness :
    (∀ g os', lock osFree "f" none none = .ok g os' →
      osFree.holder "f" = none ∧ os'.holder "f" = some g.fd) ∧
    (∀ e os', lock osFree "f" none none = .err e os' →
      os'.holder "f" = osFree.holder "f") ∧
    (∀ g os', try_lock osFree "f" none none = .ok (some g) os' →
      osFree.holder "f" = none ∧ os'.holder "f" = some g.fd) ∧
    (∀ os', try_lock osFree "f" none none = .ok none os' →
      os'.holder "f" = osFree.holder "f") ∧
    (∀ e os', try_lock osFree "f" none none = .err e os' →
      os'.holder "f" = osFree.holder "f") ∧
    (∀ (g : Guard) spur, osFree.holder "f" = some g.fd →
      (g.drop osFree spur).holder "f" = none) ∧
    (∀ (g : Guard) spur, osFree.holder "f" ≠ some g.fd →
      (g.drop osFree spur).holder "f" = osFree.holder "f") :=
  lock_state_machine osFree "f" none none osFree_wf

end Fmutex
